import Mathlib

/-!
Verification of the score-normalizer arithmetic core.

The source is a single React component (`src/unnamed/part_000`).  Its
arithmetic core consists of:
  * `stats` (lines 23-37): filters the student list to valid raw scores,
    and computes `rawMean`, `rawSD` (population), and `targetMeanPoints`;
  * `normalizedData` (lines 40-55): per-student adjusted score under the
    `ratio` or `robust` method, clamped to `[0, maxMarks]`, then stored as
    `parseFloat(adjusted.toFixed(2))` (2-decimal rounding of the stored value);
  * the handlers `addStudent` (58-61), `removeStudent` (63) and
    `updateStudent` (64-66).

Numbers are modelled by `ℚ` (the source works with JS floats; every claim is
about exact arithmetic identities, which we settle over the rationals).  A raw
score is `Option ℚ`: `some q` stands for an entry that is non-empty and parses
to the finite number `q`; `none` stands for the empty string or a non-numeric
entry (`parseFloat` gives `NaN`).  `Math.sqrt` has no rational model, so the
statistics record keeps the source's intermediate `variance`; the source's
`rawSD` is `Real.sqrt variance`, and theorems about `rawSD` say so explicitly.
`toFixed(2)` rounds to the nearest multiple of `0.01`; we model the tie-break
as round-half-up (`round`), and no theorem or counterexample below sits on an
exact tie, so the tie-break convention is never load-bearing.
-/

/-- A student row: `{ id, name, raw }` from the source (lines 14-20).
`raw` is `some q` when the entry is non-empty and parses to the finite
number `q`, and `none` otherwise. -/
structure Student where
  id : Nat
  name : String
  raw : Option ℚ
deriving DecidableEq

/-- Line 24: `students.filter(s => s.raw !== '' && !isNaN(s.raw)).map(s => parseFloat(s.raw))`. -/
def validScores (students : List Student) : List ℚ :=
  (students.filter fun s => s.raw.isSome).map fun s => s.raw.getD 0

/-- The record returned by `stats` (lines 23-37).  The source returns
`{rawMean, rawSD, targetMeanPoints}` with `rawSD = Math.sqrt(variance)`;
since the square root of a rational is not rational we keep the source's
intermediate `variance` (line 32), and state facts about `rawSD` as facts
about `Real.sqrt variance`.  The empty-input fallback `rawSD = 0` coincides
with `Real.sqrt 0 = 0`. -/
structure Stats where
  rawMean : ℚ
  variance : ℚ
  targetMeanPoints : ℚ
deriving DecidableEq

/-- Lines 23-37 of the source: the `stats` computation.  `reduce((a,b)=>a+b, 0)`
is a left fold from `0`; `Math.pow(val - rawMean, 2)` is squaring. -/
def statsOf (maxMarks targetMeanPercent : ℚ) (students : List Student) : Stats :=
  let vs := validScores students
  let count := vs.length
  if count = 0 then ⟨0, 0, 0⟩
  else
    let sum := vs.foldl (· + ·) 0
    let rawMean := sum / (count : ℚ)
    let squareDiffs := vs.map fun val => (val - rawMean) ^ 2
    let variance := squareDiffs.foldl (· + ·) 0 / (count : ℚ)
    let targetMeanPoints := (targetMeanPercent / 100) * maxMarks
    ⟨rawMean, variance, targetMeanPoints⟩

/-- Line 53: `parseFloat(adjusted.toFixed(2))` — round to the nearest multiple
of `1/100` (ties modelled as round-half-up; nothing below depends on the
tie-break). -/
def round2 (q : ℚ) : ℚ := (round (q * 100) : ℚ) / 100

/-- A row of `normalizedData`: the student spread together with the stored
`adjusted` field (line 53). -/
structure NormStudent where
  id : Nat
  name : String
  raw : Option ℚ
  adjusted : ℚ
deriving DecidableEq

/-- The value of the local variable `adjusted` after the clamp on line 52 and
before the 2-decimal rounding on line 53: parse (line 42, `0` fallback on
line 43 for `NaN`), method branch (lines 46-51), clamp
`Math.min(maxMarks, Math.max(0, adjusted))` (line 52).  This is the
"clamped precise value" the spec speaks about. -/
def adjustedPrecise (maxMarks : ℚ) (method : String) (sdScaling : ℚ)
    (st : Stats) (s : Student) : ℚ :=
  match s.raw with
  | none => 0
  | some raw =>
    let adjusted :=
      if method = "ratio" then
        if st.rawMean = 0 then raw else raw * (st.targetMeanPoints / st.rawMean)
      else
        st.targetMeanPoints + sdScaling * (raw - st.rawMean)
    min maxMarks (max 0 adjusted)

/-- One element of `normalizedData` (lines 41-54): `{...student, adjusted}`
where `adjusted` is stored already rounded to 2 decimals (line 53).  On the
`NaN` branch (line 43) the source stores `adjusted: 0` with neither clamp nor
rounding. -/
def normStudent (maxMarks : ℚ) (method : String) (sdScaling : ℚ)
    (st : Stats) (s : Student) : NormStudent :=
  match s.raw with
  | none => ⟨s.id, s.name, s.raw, 0⟩
  | some raw =>
    let adjusted :=
      if method = "ratio" then
        if st.rawMean = 0 then raw else raw * (st.targetMeanPoints / st.rawMean)
      else
        st.targetMeanPoints + sdScaling * (raw - st.rawMean)
    ⟨s.id, s.name, s.raw, round2 (min maxMarks (max 0 adjusted))⟩

/-- Lines 40-55: `normalizedData` maps every student through the
normalization with the statistics of the whole list. -/
def normalizedData (maxMarks targetMeanPercent : ℚ) (method : String)
    (sdScaling : ℚ) (students : List Student) : List NormStudent :=
  students.map
    (normStudent maxMarks method sdScaling (statsOf maxMarks targetMeanPercent students))

/-- Line 59: `students.length > 0 ? Math.max(...students.map(s => s.id)) + 1 : 1`.
`Math.max` over a non-empty list of naturals is the left fold of `max` from `0`. -/
def newStudentId (students : List Student) : Nat :=
  if 0 < students.length then (students.map Student.id).foldl max 0 + 1 else 1

/-- Lines 58-61: append `{ id: newId, name: "Student " + newId, raw: 0 }`. -/
def addStudent (students : List Student) : List Student :=
  students ++ [⟨newStudentId students, "Student " ++ toString (newStudentId students), some 0⟩]

/-- Line 63: `students.filter(s => s.id !== id)`. -/
def removeStudent (students : List Student) (id : Nat) : List Student :=
  students.filter fun s => s.id != id

/-- The `field`/`value` pair passed to `updateStudent`: the source updates
either the `name` field (with a string) or the `raw` field (with the entered
value). -/
inductive FieldVal where
  | name (v : String)
  | raw (v : Option ℚ)
deriving DecidableEq

/-- The update `{...s, [field]: value}`: replace exactly the named field. -/
def applyField (s : Student) : FieldVal → Student
  | FieldVal.name v => ⟨s.id, v, s.raw⟩
  | FieldVal.raw v => ⟨s.id, s.name, v⟩

/-- Lines 64-66: `students.map(s => s.id === id ? {...s, [field]: value} : s)`. -/
def updateStudent (students : List Student) (id : Nat) (f : FieldVal) : List Student :=
  students.map fun s => if s.id = id then applyField s f else s

/-- The initial student list of the source (lines 14-20), used as a concrete
input for witnesses. -/
def exStudents : List Student :=
  [⟨1, "Student A", some 65⟩, ⟨2, "Student B", some 55⟩, ⟨3, "Student C", some 82⟩,
    ⟨4, "Student D", some 40⟩, ⟨5, "Student E", some 70⟩]

/-- All invalid raw scores: used as a concrete no-valid-data input. -/
def noScoreStudents : List Student := [⟨1, "Student A", none⟩]

/-- One student with score 50, used against a negative `maxMarks`. -/
def negMaxStudents : List Student := [⟨1, "Student A", some 50⟩]

/-- One student with score 20, used against the fractional
`maxMarks = 10.006`, whose clamped value rounds up past `maxMarks`. -/
def overshootStudents : List Student := [⟨1, "Student A", some 20⟩]

/-- One student with raw score 1, driving the clamped precise value to
`0.004`. -/
def tinyTargetStudents : List Student := [⟨1, "Student A", some 1⟩]

/-- Two opposite scores `±0.004`, so the raw mean is exactly `0`. -/
def zeroMeanStudents : List Student := [⟨1, "A", some (1/250)⟩, ⟨2, "B", some (-1/250)⟩]

/-- Two students `65.004` and `55`, exercising the 2-decimal rounding of
both stored adjusted values. -/
def gapStudents : List Student := [⟨1, "A", some (16251/250)⟩, ⟨2, "B", some 55⟩]

/-- Two students `65.001` and `65`, whose precise adjusted values are
distinct and strictly interior but round to the same 2-decimal value. -/
def rankStudents : List Student := [⟨1, "A", some (65001/1000)⟩, ⟨2, "B", some 65⟩]

/-- The first two rows of the source's initial list. -/
def twoStudents : List Student := [⟨1, "Student A", some 65⟩, ⟨2, "Student B", some 55⟩]

/-- The statistics of the source's initial list: mean `62.4`, population
variance `201.04`, target `75` points. -/
lemma statsOf_ex : statsOf 100 75 exStudents = ⟨312/5, 5026/25, 75⟩ := by
  norm_num [statsOf, validScores, exStudents]

/-- A left fold of `+` starting from `a` is `a` plus the list sum
(the shape of `reduce((a, b) => a + b, 0)`). -/
lemma foldl_add_eq_sum (a : ℚ) (l : List ℚ) : l.foldl (· + ·) a = a + l.sum := by
  induction l generalizing a with
  | nil => simp
  | cons x t ih => simp [ih (a + x), add_assoc]

/-- The clamp of line 52 stays above `0` whenever `maxMarks` is nonnegative. -/
lemma clamp_nonneg (m x : ℚ) (hm : 0 ≤ m) : 0 ≤ min m (max 0 x) :=
  le_min hm (le_max_left 0 x)

/-- The clamp of line 52 never exceeds `maxMarks`. -/
lemma clamp_le (m x : ℚ) : min m (max 0 x) ≤ m := min_le_left m _

/-- If the clamped value is strictly between the bounds, the clamp did
nothing. -/
lemma clamp_eq_of_interior (m x : ℚ) (h0 : 0 < min m (max 0 x))
    (hm : min m (max 0 x) < m) : min m (max 0 x) = x := by
  have h1 : min m (max 0 x) = max 0 x := by
    rcases le_total (max 0 x) m with h | h
    · exact min_eq_right h
    · rw [min_eq_left h] at hm
      exact absurd hm (lt_irrefl m)
  rw [h1] at h0 ⊢
  rcases le_total x 0 with h | h
  · rw [max_eq_left h] at h0
    exact absurd h0 (lt_irrefl 0)
  · exact max_eq_right h

/-- Rounding to 2 decimals is monotone. -/
lemma round2_mono {a b : ℚ} (h : a ≤ b) : round2 a ≤ round2 b := by
  unfold round2
  have hr : round (a * 100) ≤ round (b * 100) := by
    rw [round_eq, round_eq]
    exact Int.floor_le_floor (by linarith)
  have hc : ((round (a * 100) : ℤ) : ℚ) ≤ ((round (b * 100) : ℤ) : ℚ) := by exact_mod_cast hr
  linarith

/-- Rounding to 2 decimals keeps nonnegative rationals nonnegative. -/
lemma round2_nonneg {a : ℚ} (h : 0 ≤ a) : 0 ≤ round2 a := by
  unfold round2
  have hr : (0 : ℤ) ≤ round (a * 100) := by
    rw [round_eq]
    exact Int.le_floor.mpr (by push_cast; linarith)
  have hc : (0 : ℚ) ≤ ((round (a * 100) : ℤ) : ℚ) := by exact_mod_cast hr
  linarith

/-- Rounding to 2 decimals overshoots its argument by less than `1/200 = 0.005`. -/
lemma round2_le_add (a : ℚ) : round2 a ≤ a + 1 / 200 := by
  unfold round2
  have hr : ((round (a * 100) : ℤ) : ℚ) ≤ a * 100 + 1 / 2 := by
    rw [round_eq]
    exact_mod_cast Int.floor_le (a * 100 + 1 / 2)
  linarith

/-- Rounding does not move `0`. -/
lemma round2_zero : round2 0 = 0 := by norm_num [round2, round_eq]

/-- The stored `adjusted` (line 53) is the 2-decimal rounding of the
pre-rounding clamped value; on the `NaN` branch both are `0`. -/
lemma normStudent_eq_round2 (m : ℚ) (method : String) (sd : ℚ) (st : Stats)
    (s : Student) :
    (normStudent m method sd st s).adjusted
      = round2 (adjustedPrecise m method sd st s) := by
  cases hs : s.raw with
  | none => simp [normStudent, adjustedPrecise, hs, round2_zero]
  | some r => simp [normStudent, adjustedPrecise, hs]

/-- Unfolding of `adjustedPrecise` on the robust branch. -/
lemma adjustedPrecise_robust (m sd : ℚ) (st : Stats) (s : Student) (r : ℚ)
    (h : s.raw = some r) :
    adjustedPrecise m "robust" sd st s
      = min m (max 0 (st.targetMeanPoints + sd * (r - st.rawMean))) := by
  simp [adjustedPrecise, h, String.reduceEq]

/-- Unfolding of `adjustedPrecise` on the ratio branch with zero mean. -/
lemma adjustedPrecise_ratio_zero (m sd : ℚ) (st : Stats) (s : Student) (r : ℚ)
    (h : s.raw = some r) (h0 : st.rawMean = 0) :
    adjustedPrecise m "ratio" sd st s = min m (max 0 r) := by
  simp [adjustedPrecise, h, h0]

/-- The clamp bounds for `adjustedPrecise`, both branches and the `NaN`
fallback, whenever `maxMarks` is nonnegative. -/
lemma adjustedPrecise_bounds (m : ℚ) (method : String) (sd : ℚ) (st : Stats)
    (s : Student) (hm : 0 ≤ m) :
    0 ≤ adjustedPrecise m method sd st s ∧ adjustedPrecise m method sd st s ≤ m := by
  cases hs : s.raw with
  | none =>
    constructor <;> simp [adjustedPrecise, hs, hm]
  | some r =>
    constructor
    · rw [adjustedPrecise, hs]
      exact clamp_nonneg _ _ hm
    · rw [adjustedPrecise, hs]
      exact clamp_le _ _

/-- The starting value of a `foldl max` never decreases. -/
lemma le_foldl_max (a : Nat) (l : List Nat) : a ≤ l.foldl max a := by
  induction l generalizing a with
  | nil => exact le_refl a
  | cons b t ih => exact le_trans (le_max_left a b) (ih (max a b))

/-- Every list element is bounded by the `foldl max`. -/
lemma mem_le_foldl_max {x : Nat} {l : List Nat} (a : Nat) (h : x ∈ l) :
    x ≤ l.foldl max a := by
  induction l generalizing a with
  | nil => cases h
  | cons b t ih =>
    rcases List.mem_cons.mp h with rfl | hx
    · exact le_trans (le_max_right a x) (le_foldl_max _ t)
    · exact ih _ hx

/-- A `foldl max` is the starting value or is attained in the list. -/
lemma foldl_max_attained (a : Nat) (l : List Nat) :
    l.foldl max a = a ∨ l.foldl max a ∈ l := by
  induction l generalizing a with
  | nil => exact Or.inl rfl
  | cons b t ih =>
    rcases ih (max a b) with h | h
    · rcases max_choice a b with hab | hab
      · exact Or.inl (by rw [List.foldl_cons, h, hab])
      · exact Or.inr (by rw [List.foldl_cons, h, hab]; exact List.mem_cons_self b t)
    · exact Or.inr (List.mem_cons_of_mem b h)

/-- A map whose function fixes every element of the list is the identity. -/
lemma map_eq_self {α : Type} (l : List α) (g : α → α) (h : ∀ x ∈ l, g x = x) :
    l.map g = l := by
  induction l with
  | nil => rfl
  | cons x t ih =>
    simp [h x (List.mem_cons_self x t), ih fun y hy => h y (List.mem_cons_of_mem x hy)]

/-- C7: when there is at least one valid score, the `stats` output satisfies
`targetMeanPoints = (targetMeanPercent / 100) * maxMarks` exactly, for any
rational `targetMeanPercent` (also negative or above 100) and any `maxMarks`;
no clamp is applied, so the target may lie outside `[0, maxMarks]`. -/
theorem targetMeanPoints_exact (m p : ℚ) (students : List Student)
    (h : validScores students ≠ []) :
    (statsOf m p students).targetMeanPoints = p / 100 * m := by
  have hlen : ¬((validScores students).length = 0) := by
    simpa [List.length_eq_zero] using h
  simp [statsOf, hlen]

/-- Witness for C7 at a percentage outside `[0, 100]`: with `maxMarks = 200`
and `targetMeanPercent = -50` the target is `-100`, outside `[0, 200]`. -/
theorem targetMeanPoints_exact_witness :
    validScores exStudents ≠ []
      ∧ (statsOf 200 (-50) exStudents).targetMeanPoints = (-50) / 100 * 200
      ∧ ((-50 : ℚ) / 100 * 200) < 0 :=
  ⟨by simp [validScores, exStudents],
    targetMeanPoints_exact 200 (-50) exStudents (by simp [validScores, exStudents]),
    by norm_num⟩

/-- C8: when no raw score is valid (empty list, or no entry that is non-empty
and numeric), `stats` returns the explicit fallback `rawMean = 0`,
`rawSD = Real.sqrt 0 = 0`, `targetMeanPoints = 0`, whatever the
configuration. -/
theorem stats_empty_defaults (m p : ℚ) (students : List Student)
    (h : validScores students = []) :
    (statsOf m p students).rawMean = 0
      ∧ (statsOf m p students).variance = 0
      ∧ Real.sqrt ((statsOf m p students).variance) = 0
      ∧ (statsOf m p students).targetMeanPoints = 0 := by
  have hlen : (validScores students).length = 0 := by rw [h]; rfl
  simp [statsOf, hlen, Real.sqrt_zero]

/-- Witness for C8: one student with a non-numeric entry, arbitrary-looking
configuration `maxMarks = 42`, `targetMeanPercent = 7`. -/
theorem stats_empty_defaults_witness :
    validScores noScoreStudents = []
      ∧ (statsOf 42 7 noScoreStudents).rawMean = 0
      ∧ (statsOf 42 7 noScoreStudents).variance = 0
      ∧ Real.sqrt ((statsOf 42 7 noScoreStudents).variance) = 0
      ∧ (statsOf 42 7 noScoreStudents).targetMeanPoints = 0 :=
  ⟨by simp [validScores, noScoreStudents],
    (stats_empty_defaults 42 7 noScoreStudents (by simp [validScores, noScoreStudents])).1,
    (stats_empty_defaults 42 7 noScoreStudents (by simp [validScores, noScoreStudents])).2.1,
    (stats_empty_defaults 42 7 noScoreStudents (by simp [validScores, noScoreStudents])).2.2.1,
    (stats_empty_defaults 42 7 noScoreStudents (by simp [validScores, noScoreStudents])).2.2.2⟩

/-- When every raw score is valid, the filter on line 24 keeps the whole
list. -/
lemma validScores_all_some (students : List Student)
    (hall : ∀ s ∈ students, s.raw.isSome) :
    validScores students = students.map fun s => s.raw.getD 0 := by
  unfold validScores
  rw [List.filter_eq_self.mpr hall]

/-- C1: for a non-empty list whose raw scores are all non-empty and numeric,
`rawMean` is the arithmetic mean (sum over count) and `rawSD`
(`Real.sqrt variance` in the source) is the population standard deviation:
the square root of the mean of the squared deviations, divided by the count
and not by count minus one. -/
theorem stats_mean_and_population_sd (m p : ℚ) (students : List Student)
    (hne : students ≠ []) (hall : ∀ s ∈ students, s.raw.isSome) :
    (statsOf m p students).rawMean
        = (students.map fun s => s.raw.getD 0).sum / (students.length : ℚ)
      ∧ Real.sqrt ((statsOf m p students).variance)
        = Real.sqrt ((((students.map fun s => s.raw.getD 0).map fun x =>
            (x - (students.map fun s => s.raw.getD 0).sum / (students.length : ℚ)) ^ 2).sum
            / (students.length : ℚ) : ℚ)) := by
  have hvs := validScores_all_some students hall
  have hlen : (validScores students).length = students.length := by rw [hvs]; simp
  have hlen0 : ¬((validScores students).length = 0) := by
    rw [hlen]
    simpa [List.length_eq_zero] using hne
  constructor
  · simp [statsOf, hlen0, hvs, hlen, hne, foldl_add_eq_sum]
  · have hv : (statsOf m p students).variance
        = (((students.map fun s => s.raw.getD 0).map fun x =>
            (x - (students.map fun s => s.raw.getD 0).sum / (students.length : ℚ)) ^ 2).sum
            / (students.length : ℚ) : ℚ) := by
      simp [statsOf, hlen0, hvs, hlen, hne, foldl_add_eq_sum]
    rw [hv]

/-- Witness for C1 at the source's initial list: mean `312/5 = 62.4`. -/
theorem stats_mean_and_population_sd_witness :
    exStudents ≠ []
      ∧ (statsOf 100 75 exStudents).rawMean
          = (exStudents.map fun s => s.raw.getD 0).sum / (exStudents.length : ℚ)
      ∧ (statsOf 100 75 exStudents).rawMean = 312 / 5 :=
  ⟨by simp [exStudents],
    (stats_mean_and_population_sd 100 75 exStudents (by simp [exStudents]) (by decide)).1,
    by norm_num [statsOf, validScores, exStudents]⟩

/-- C2 (amended): with `0 ≤ maxMarks`, the pre-rounding clamped adjusted
value of every student lies in `[0, maxMarks]` (both methods, any
`sdScaling`, and the `0` fallback for an unparseable raw score), and the
stored 2-decimal value lies in `[0, maxMarks + 1/200]` — the rounding on
line 53 can overshoot `maxMarks` by less than `0.005` when `maxMarks` is
not a multiple of `0.01`. -/
theorem adjusted_range_amended (m p : ℚ) (method : String) (sd : ℚ)
    (students : List Student) (hm : 0 ≤ m) :
    (∀ s ∈ students,
        0 ≤ adjustedPrecise m method sd (statsOf m p students) s
          ∧ adjustedPrecise m method sd (statsOf m p students) s ≤ m)
      ∧ ∀ ns ∈ normalizedData m p method sd students,
          0 ≤ ns.adjusted ∧ ns.adjusted ≤ m + 1 / 200 := by
  constructor
  · intro s _
    exact adjustedPrecise_bounds m method sd _ s hm
  · intro ns hns
    rcases List.mem_map.mp hns with ⟨s, _, rfl⟩
    rw [normStudent_eq_round2]
    have hb := adjustedPrecise_bounds m method sd (statsOf m p students) s hm
    exact ⟨round2_nonneg hb.1, le_trans (round2_le_add _) (by linarith [hb.2])⟩

/-- Counterexample to C2 as stated, twice over.  First instance: with
`maxMarks = -5` (the configuration accepts any number) the stored adjusted
score of the single student is `-5`, which does not satisfy `0 ≤ adjusted`.
Second instance: with `maxMarks = 10.006 = 5003/500` (target `200%`, raw
`20`) the value is clamped to `maxMarks` itself and then rounded up by line
53 to `10.01 = 1001/100 > maxMarks`, violating `adjusted ≤ maxMarks` — this
overshoot is what forces the `maxMarks + 1/200` bound on the stored value in
the amended claim. -/
theorem adjusted_range_cex :
    ((normalizedData (-5) 75 "robust" 1 negMaxStudents).map (fun ns => ns.adjusted) = [-5]
        ∧ ¬(0 : ℚ) ≤ -5)
      ∧ (normalizedData (5003/500) 200 "robust" 1 overshootStudents).map
            (fun ns => ns.adjusted) = [1001/100]
        ∧ ¬(1001/100 : ℚ) ≤ 5003/500 := by
  refine ⟨⟨?_, by norm_num⟩, ?_, by norm_num⟩
  · norm_num [normalizedData, normStudent, statsOf, validScores, negMaxStudents, round2,
      round_eq]
  · norm_num [normalizedData, normStudent, statsOf, validScores, overshootStudents, round2,
      round_eq]

/-- Witness for C2 (amended) at the source's initial list: the first
student's precise adjusted value `77.6` lies in `[0, 100]` and the stored
value is within `[0, 100 + 1/200]`. -/
theorem adjusted_range_amended_witness :
    (0 : ℚ) ≤ 100
      ∧ (⟨1, "Student A", some 65⟩ : Student) ∈ exStudents
      ∧ 0 ≤ adjustedPrecise 100 "robust" 1 (statsOf 100 75 exStudents) ⟨1, "Student A", some 65⟩
      ∧ adjustedPrecise 100 "robust" 1 (statsOf 100 75 exStudents) ⟨1, "Student A", some 65⟩ ≤ 100 :=
  ⟨by norm_num, by simp [exStudents],
    ((adjusted_range_amended 100 75 "robust" 1 exStudents (by norm_num)).1 _
      (by simp [exStudents])).1,
    ((adjusted_range_amended 100 75 "robust" 1 exStudents (by norm_num)).1 _
      (by simp [exStudents])).2⟩

/-- C3 (amended): the `adjusted` field stored by the engine is the 2-decimal
rounding (line 53) of the clamped precise value — the stored value is
mutated by the rounding, which is therefore not only a display concern. -/
theorem adjusted_stored_is_rounded (m : ℚ) (method : String) (sd : ℚ)
    (st : Stats) (s : Student) :
    (normStudent m method sd st s).adjusted
      = round2 (adjustedPrecise m method sd st s) :=
  normStudent_eq_round2 m method sd st s

/-- Counterexample to C3 as stated: with `maxMarks = 1`,
`targetMeanPercent = 0.4`, robust method, the clamped precise value is
`1/250 = 0.004` but the engine stores `0`: the stored adjusted value is not
the clamped precise value. -/
theorem adjusted_stored_is_rounded_cex :
    (normalizedData 1 (2/5) "robust" 1 tinyTargetStudents).map (fun ns => ns.adjusted) = [0]
      ∧ adjustedPrecise 1 "robust" 1 (statsOf 1 (2/5) tinyTargetStudents)
          ⟨1, "Student A", some 1⟩ = 1/250
      ∧ (0 : ℚ) ≠ 1/250 := by
  refine ⟨?_, ?_, by norm_num⟩
  · norm_num [normalizedData, normStudent, statsOf, validScores, tinyTargetStudents, round2,
      round_eq]
  · rw [adjustedPrecise_robust 1 1 _ _ 1 rfl]
    norm_num [statsOf, validScores, tinyTargetStudents]

/-- C6 (amended): under the ratio method with `rawMean = 0`, the clamped
precise adjusted value of a student with finite raw score `r` is exactly
`min maxMarks (max 0 r)` (identity fallback, then clamp); the stored value
is its 2-decimal rounding. -/
theorem ratio_zero_mean_identity_amended (m sd : ℚ) (st : Stats) (s : Student)
    (r : ℚ) (hraw : s.raw = some r) (hmean : st.rawMean = 0) :
    adjustedPrecise m "ratio" sd st s = min m (max 0 r)
      ∧ (normStudent m "ratio" sd st s).adjusted = round2 (min m (max 0 r)) := by
  have e := adjustedPrecise_ratio_zero m sd st s r hraw hmean
  exact ⟨e, by rw [normStudent_eq_round2, e]⟩

/-- Counterexample to C6 as stated: with `rawMean = 0`, ratio method,
`maxMarks = 100`, the first student's raw score is `0.004`, so
`min(maxMarks, max(0, r)) = 0.004`, but the engine stores `0` (the
2-decimal rounding): the stored adjusted is not `min(maxMarks, max(0, r))`. -/
theorem ratio_zero_mean_identity_cex :
    (statsOf 100 75 zeroMeanStudents).rawMean = 0
      ∧ (normalizedData 100 75 "ratio" 1 zeroMeanStudents).map (fun ns => ns.adjusted) = [0, 0]
      ∧ (0 : ℚ) ≠ min 100 (max 0 (1/250)) := by
  refine ⟨by norm_num [statsOf, validScores, zeroMeanStudents], ?_, by norm_num⟩
  norm_num [normalizedData, normStudent, statsOf, validScores, zeroMeanStudents, round2,
    round_eq]

/-- Witness for C6 (amended) at the `±0.004` list: the first student's
precise adjusted value is `min 100 (max 0 (1/250)) = 1/250`. -/
theorem ratio_zero_mean_identity_amended_witness :
    (statsOf 100 75 zeroMeanStudents).rawMean = 0
      ∧ (⟨1, "A", some (1/250)⟩ : Student).raw = some (1/250)
      ∧ adjustedPrecise 100 "ratio" 1 (statsOf 100 75 zeroMeanStudents)
          ⟨1, "A", some (1/250)⟩ = min 100 (max 0 (1/250)) :=
  ⟨by norm_num [statsOf, validScores, zeroMeanStudents], rfl,
    (ratio_zero_mean_identity_amended 100 1 (statsOf 100 75 zeroMeanStudents)
      ⟨1, "A", some (1/250)⟩ (1/250) rfl
      (by norm_num [statsOf, validScores, zeroMeanStudents])).1⟩

/-- C4 (amended): robust method, `sdScaling = 1`: for two students with
finite raw scores `a > b` whose *pre-rounding* clamped adjusted values are
both strictly inside `(0, maxMarks)`, the difference of those precise
values is exactly `a - b`. -/
theorem robust_gap_preservation_amended (m : ℚ) (st : Stats) (sA sB : Student)
    (a b : ℚ) (hA : sA.raw = some a) (hB : sB.raw = some b) (_hab : b < a)
    (h1 : 0 < adjustedPrecise m "robust" 1 st sA)
    (h2 : adjustedPrecise m "robust" 1 st sA < m)
    (h3 : 0 < adjustedPrecise m "robust" 1 st sB)
    (h4 : adjustedPrecise m "robust" 1 st sB < m) :
    adjustedPrecise m "robust" 1 st sA - adjustedPrecise m "robust" 1 st sB
      = a - b := by
  have eA := adjustedPrecise_robust m 1 st sA a hA
  have eB := adjustedPrecise_robust m 1 st sB b hB
  rw [eA] at h1 h2 ⊢
  rw [eB] at h3 h4 ⊢
  rw [clamp_eq_of_interior _ _ h1 h2, clamp_eq_of_interior _ _ h3 h4]
  ring

/-- Counterexample to C4 as stated: raw scores `a = 65.004 > b = 55`,
`maxMarks = 100`, target `75%`, robust with `sdScaling = 1`.  The engine's
stored adjusted values are `80` and `70`, both strictly inside `(0, 100)`,
but their difference `10` is not `a - b = 10.004`. -/
theorem robust_gap_preservation_cex :
    (normalizedData 100 75 "robust" 1 gapStudents).map (fun ns => ns.adjusted) = [80, 70]
      ∧ (55 : ℚ) < 16251/250
      ∧ (0 : ℚ) < 80 ∧ (80 : ℚ) < 100 ∧ (0 : ℚ) < 70 ∧ (70 : ℚ) < 100
      ∧ (80 : ℚ) - 70 ≠ 16251/250 - 55 := by
  refine ⟨?_, by norm_num, by norm_num, by norm_num, by norm_num, by norm_num, by norm_num⟩
  norm_num [normalizedData, normStudent, statsOf, validScores, gapStudents, round2, round_eq]
  simp only [String.reduceEq, if_false]
  norm_num

/-- Witness for C4 (amended) at the source's initial list: students with raw
`65` and `55` have precise adjusted values `77.6` and `67.6`, both strictly
inside `(0, 100)`, and their difference is `10 = 65 - 55`. -/
theorem robust_gap_preservation_amended_witness :
    (⟨1, "Student A", some 65⟩ : Student).raw = some 65
      ∧ (55 : ℚ) < 65
      ∧ 0 < adjustedPrecise 100 "robust" 1 (statsOf 100 75 exStudents) ⟨1, "Student A", some 65⟩
      ∧ adjustedPrecise 100 "robust" 1 (statsOf 100 75 exStudents) ⟨1, "Student A", some 65⟩ < 100
      ∧ adjustedPrecise 100 "robust" 1 (statsOf 100 75 exStudents) ⟨1, "Student A", some 65⟩
          - adjustedPrecise 100 "robust" 1 (statsOf 100 75 exStudents) ⟨2, "Student B", some 55⟩
          = 65 - 55 :=
  ⟨rfl, by norm_num,
    by rw [adjustedPrecise_robust 100 1 _ _ 65 rfl, statsOf_ex]; norm_num,
    by rw [adjustedPrecise_robust 100 1 _ _ 65 rfl, statsOf_ex]; norm_num,
    robust_gap_preservation_amended 100 (statsOf 100 75 exStudents)
      ⟨1, "Student A", some 65⟩ ⟨2, "Student B", some 55⟩ 65 55 rfl rfl (by norm_num)
      (by rw [adjustedPrecise_robust 100 1 _ _ 65 rfl, statsOf_ex]; norm_num)
      (by rw [adjustedPrecise_robust 100 1 _ _ 65 rfl, statsOf_ex]; norm_num)
      (by rw [adjustedPrecise_robust 100 1 _ _ 55 rfl, statsOf_ex]; norm_num)
      (by rw [adjustedPrecise_robust 100 1 _ _ 55 rfl, statsOf_ex]; norm_num)⟩

/-- C5 (amended): robust method, `sdScaling = 1`: the stored adjusted scores
never invert the raw order (weak monotonicity, rounding and clamping can
only create ties), and a tie of the *pre-rounding* clamped values between
students with different raws can only sit at a boundary: the common value is
`0` or `maxMarks`.  (The stored 2-decimal values can also tie away from the
boundary; see the counterexample.) -/
theorem robust_rank_order_amended (m : ℚ) (st : Stats) (sA sB : Student)
    (a b : ℚ) (hA : sA.raw = some a) (hB : sB.raw = some b) :
    (b ≤ a → (normStudent m "robust" 1 st sB).adjusted
        ≤ (normStudent m "robust" 1 st sA).adjusted)
      ∧ (b < a → adjustedPrecise m "robust" 1 st sA = adjustedPrecise m "robust" 1 st sB →
          adjustedPrecise m "robust" 1 st sA = 0 ∨ adjustedPrecise m "robust" 1 st sA = m) := by
  have eA := adjustedPrecise_robust m 1 st sA a hA
  have eB := adjustedPrecise_robust m 1 st sB b hB
  constructor
  · intro hba
    rw [normStudent_eq_round2, normStudent_eq_round2, eA, eB]
    exact round2_mono (min_le_min (le_refl m) (max_le_max (le_refl 0) (by linarith)))
  · intro hba heq
    by_cases hm0 : m ≤ 0
    · right
      rw [eA]
      exact min_eq_left (le_trans hm0 (le_max_left 0 _))
    · push_neg at hm0
      by_contra hcon
      push_neg at hcon
      obtain ⟨hne0, hnem⟩ := hcon
      have hbound := adjustedPrecise_bounds m "robust" 1 st sA (le_of_lt hm0)
      have h0 : 0 < adjustedPrecise m "robust" 1 st sA :=
        lt_of_le_of_ne hbound.1 (Ne.symm hne0)
      have hmlt : adjustedPrecise m "robust" 1 st sA < m := lt_of_le_of_ne hbound.2 hnem
      have h0B : 0 < adjustedPrecise m "robust" 1 st sB := heq ▸ h0
      have hmB : adjustedPrecise m "robust" 1 st sB < m := heq ▸ hmlt
      rw [eA] at h0 hmlt heq
      rw [eB] at h0B hmB heq
      rw [clamp_eq_of_interior _ _ h0 hmlt, clamp_eq_of_interior _ _ h0B hmB] at heq
      have hab : a = b := by linarith
      exact absurd hab (ne_of_gt hba)

/-- Counterexample to C5 as stated: raw scores `65.001 > 65`, `maxMarks =
100`, target `75%`, robust with `sdScaling = 1`.  The precise adjusted
values `75.0005` and `74.9995` are distinct and strictly inside `(0, 100)`
— no clamping at either boundary — yet both stored scores are `75`: the
tie is created by the 2-decimal rounding, not by boundary clamping. -/
theorem robust_rank_order_cex :
    (normalizedData 100 75 "robust" 1 rankStudents).map (fun ns => ns.adjusted) = [75, 75]
      ∧ (65 : ℚ) < 65001/1000
      ∧ adjustedPrecise 100 "robust" 1 (statsOf 100 75 rankStudents)
          ⟨1, "A", some (65001/1000)⟩ = 150001/2000
      ∧ adjustedPrecise 100 "robust" 1 (statsOf 100 75 rankStudents)
          ⟨2, "B", some 65⟩ = 149999/2000
      ∧ (150001/2000 : ℚ) ≠ 149999/2000
      ∧ (0 : ℚ) < 149999/2000 ∧ (150001/2000 : ℚ) < 100 := by
  refine ⟨?_, by norm_num, ?_, ?_, by norm_num, by norm_num, by norm_num⟩
  · norm_num [normalizedData, normStudent, statsOf, validScores, rankStudents, round2,
      round_eq]
    simp only [String.reduceEq, if_false]
    norm_num
  · rw [adjustedPrecise_robust 100 1 _ _ (65001/1000) rfl]
    norm_num [statsOf, validScores, rankStudents]
  · rw [adjustedPrecise_robust 100 1 _ _ 65 rfl]
    norm_num [statsOf, validScores, rankStudents]

/-- Witness for C5 (amended) at the source's initial list: raw `55 ≤ 65`
gives stored adjusted `67.6 ≤ 77.6`. -/
theorem robust_rank_order_amended_witness :
    (⟨1, "Student A", some 65⟩ : Student).raw = some 65
      ∧ (⟨2, "Student B", some 55⟩ : Student).raw = some 55
      ∧ (55 : ℚ) ≤ 65
      ∧ (normStudent 100 "robust" 1 (statsOf 100 75 exStudents) ⟨2, "Student B", some 55⟩).adjusted
          ≤ (normStudent 100 "robust" 1 (statsOf 100 75 exStudents) ⟨1, "Student A", some 65⟩).adjusted :=
  ⟨rfl, rfl, by norm_num,
    (robust_rank_order_amended 100 (statsOf 100 75 exStudents)
      ⟨1, "Student A", some 65⟩ ⟨2, "Student B", some 55⟩ 65 55 rfl rfl).1 (by norm_num)⟩

/-- C9 (amended): `addStudent` appends one record whose id is
`max(existing ids) + 1` (`1` on the empty list): the new id is strictly
greater than every id currently in the list (hence fresh with respect to the
current list), and on a non-empty list it is the successor of an id present
in the list.  An id that was removed earlier *can* be reassigned — see the
counterexample. -/
theorem addStudent_id_amended (l : List Student) :
    (addStudent l).map Student.id = l.map Student.id ++ [newStudentId l]
      ∧ (∀ s ∈ l, s.id < newStudentId l)
      ∧ (l = [] → newStudentId l = 1)
      ∧ (l ≠ [] → ∃ s ∈ l, newStudentId l = s.id + 1) := by
  refine ⟨by simp [addStudent], ?_, ?_, ?_⟩
  · intro s hs
    have hne : l ≠ [] := by rintro rfl; cases hs
    unfold newStudentId
    rw [if_pos (List.length_pos.mpr hne)]
    have hle : s.id ≤ (l.map Student.id).foldl max 0 :=
      mem_le_foldl_max 0 (List.mem_map_of_mem Student.id hs)
    omega
  · intro h
    simp [newStudentId, h]
  · intro h
    unfold newStudentId
    rw [if_pos (List.length_pos.mpr h)]
    rcases foldl_max_attained 0 (l.map Student.id) with hz | hmem
    · obtain ⟨s0, hs0⟩ := List.exists_mem_of_ne_nil l h
      refine ⟨s0, hs0, ?_⟩
      have hle : s0.id ≤ (l.map Student.id).foldl max 0 :=
        mem_le_foldl_max 0 (List.mem_map_of_mem Student.id hs0)
      omega
    · rcases List.mem_map.mp hmem with ⟨s0, hs0, hid⟩
      exact ⟨s0, hs0, by rw [← hid]⟩

/-- Counterexample to C9 as stated: starting from ids `[1, 2]`, removing the
student with id `2` and then adding a student assigns id `2` again —
`max(existing ids) + 1` reuses an id once the maximal id is deleted. -/
theorem addStudent_id_reuse_cex :
    2 ∈ twoStudents.map Student.id
      ∧ 2 ∉ (removeStudent twoStudents 2).map Student.id
      ∧ 2 ∈ (addStudent (removeStudent twoStudents 2)).map Student.id := by
  refine ⟨by simp [twoStudents], ?_, ?_⟩
  · simp [removeStudent, twoStudents]
  · simp [addStudent, removeStudent, twoStudents, newStudentId]

/-- Witness for C9 (amended) at the source's initial list: the appended id
is `newStudentId exStudents = 6` and the first student's id `1` is below
it. -/
theorem addStudent_id_amended_witness :
    (addStudent exStudents).map Student.id
        = exStudents.map Student.id ++ [newStudentId exStudents]
      ∧ newStudentId exStudents = 6
      ∧ (⟨1, "Student A", some 65⟩ : Student) ∈ exStudents
      ∧ (⟨1, "Student A", some 65⟩ : Student).id < newStudentId exStudents :=
  ⟨(addStudent_id_amended exStudents).1,
    by simp [newStudentId, exStudents],
    by simp [exStudents],
    (addStudent_id_amended exStudents).2.1 _ (by simp [exStudents])⟩

/-- C10: `updateStudent id field value` preserves the length and order of
the list; every position whose id differs from `id` is unchanged; every
position whose id equals `id` becomes `applyField` of the old record, which
keeps the id and the other field unchanged and sets exactly the named
field; and if no record carries the id the list is returned unchanged. -/
theorem updateStudent_frame (l : List Student) (id : Nat) (f : FieldVal) :
    (updateStudent l id f).length = l.length
      ∧ (∀ i : Nat, ∀ s, l[i]? = some s → s.id ≠ id → (updateStudent l id f)[i]? = some s)
      ∧ (∀ i : Nat, ∀ s, l[i]? = some s → s.id = id →
          (updateStudent l id f)[i]? = some (applyField s f))
      ∧ (∀ s : Student, (applyField s f).id = s.id)
      ∧ (∀ s : Student, ∀ v, f = FieldVal.name v →
          (applyField s f).name = v ∧ (applyField s f).raw = s.raw)
      ∧ (∀ s : Student, ∀ v, f = FieldVal.raw v →
          (applyField s f).raw = v ∧ (applyField s f).name = s.name)
      ∧ ((∀ s ∈ l, s.id ≠ id) → updateStudent l id f = l) := by
  refine ⟨by simp [updateStudent], ?_, ?_, ?_, ?_, ?_, ?_⟩
  · intro i s hg hne
    rw [updateStudent, List.getElem?_map, hg]
    simp [hne]
  · intro i s hg he
    rw [updateStudent, List.getElem?_map, hg]
    simp [he]
  · intro s
    cases f <;> rfl
  · rintro s v rfl
    exact ⟨rfl, rfl⟩
  · rintro s v rfl
    exact ⟨rfl, rfl⟩
  · intro h
    unfold updateStudent
    exact map_eq_self l _ fun s hs => if_neg (h s hs)

/-- Witness for C10: no student of the initial list has id `99`, so updating
id `99` returns the list unchanged; and position `1` (id `2`) has its name
replaced with its raw score intact when updating id `2`. -/
theorem updateStudent_frame_witness :
    (exStudents.all fun s => s.id != 99) = true
      ∧ updateStudent exStudents 99 (FieldVal.name "Zed") = exStudents
      ∧ exStudents[1]? = some ⟨2, "Student B", some 55⟩
      ∧ (updateStudent exStudents 2 (FieldVal.name "Zed"))[1]?
          = some (applyField ⟨2, "Student B", some 55⟩ (FieldVal.name "Zed")) :=
  ⟨by simp [exStudents],
    (updateStudent_frame exStudents 99 (FieldVal.name "Zed")).2.2.2.2.2.2
      (by simp [exStudents]),
    by simp [exStudents],
    (updateStudent_frame exStudents 2 (FieldVal.name "Zed")).2.2.1 1
      ⟨2, "Student B", some 55⟩ (by simp [exStudents]) rfl⟩
